import Mathlib

/-!
Verification development for the scan-and-aggregate watcher
(`scripts/watcher.py`), its CLI twin (`scripts/prompt_words/watcher.py`)
and the subprocess supervisor (`scripts/unified_watcher.py`).

The Python code is shallowly embedded: dictionaries become total functions
with default 0 (missing keys and 0 are indistinguishable to every consumer
in the scripts), Python sets of strings become duplicate-free lists,
`json.loads` failures become the `none` case of an `Option Entry` log line,
and the side-effecting `save_*` / `upload_to_api` calls become an explicit
event trace.  The helpers imported from the external `claude_counter`
module (absent from the repository's scripts directory) are modelled from
the specification and are marked as such in their doc comments.
-/

namespace Watcher

/-- A parsed log line, a `LogEntry` of the spec: the fields of the JSON
object that the scripts consult (`type`, `uuid`, `requestId`, and the
already-derived UTC date bucket of `timestamp`; `none` stands for an
absent or unparsable timestamp), plus the plain-text blocks extracted
from the message content. -/
structure Entry where
  role : String
  uuid : Option String
  requestId : Option String
  date : Option String
  textBlocks : List String
deriving DecidableEq, Repr

/-- One raw line of a log file: `none` models a line on which `json.loads`
raises (truncated / corrupt line). -/
abbrev Line := Option Entry

/-- One project directory: its directory name and its `*.jsonl` files,
each file a list of raw lines. -/
structure Project where
  dirName : String
  files : List (List Line)
deriving Repr

/-- Python `str.startswith`, embedded as a prefix test on the character
list of the string (equivalent to `String.startsWith`, but reducible by
the kernel so that concrete scans evaluate). -/
def strStarts (s pre : String) : Bool :=
  pre.data.isPrefixOf s.data

/-- Modelled from the spec: `get_project_display_name` is imported from
the external `claude_counter` module.  The spec only calls the result
"the display project name" without giving a transformation, so it is
modelled as the identity on the directory name. -/
def get_project_display_name (s : String) : String := s

/-- Python truthiness of an optional string: `None` and `""` are falsy. -/
def truthy : Option String → Option String
  | none => none
  | some s => if s = "" then none else some s

/-- Message identifier of an entry: `entry.get("uuid") or
entry.get("requestId")` followed by the `if not msg_id` falsy check. -/
def msgIdOf (e : Entry) : Option String :=
  match truthy e.uuid with
  | some u => some u
  | none => truthy e.requestId

/-- Result record returned by `process_message_entry`: the message id, the
UTC date bucket, and the text blocks each paired with the names of the
tracked patterns matching that block. -/
structure MsgResult where
  msg_id : String
  date_str : String
  text_blocks : List (String × List String)
deriving DecidableEq, Repr

/-- Modelled from the spec: `process_message_entry` is imported from the
external `claude_counter` module.  Per the spec it keeps only entries of
the tracked role (`assistant` for this watcher), extracts the message id
preferring `uuid` and falling back to `requestId`, skips entries lacking a
usable id or timestamp, and returns the text blocks each paired with the
subset of tracked pattern names whose case-insensitive regular expression
matches the block.  The pattern set is the parameter `pats` and the
regular-expression engine is abstracted as the predicate `m`. -/
def process_message_entry (pats : List String) (m : String → String → Bool)
    (e : Entry) : Option MsgResult :=
  if e.role = "assistant" then
    match msgIdOf e, e.date with
    | some id, some d =>
        some { msg_id := id, date_str := d,
               text_blocks := e.textBlocks.map
                 (fun t => (t, pats.filter (fun p => m p t))) }
    | _, _ => none
  else none

/-- Set of pattern names matched anywhere in the message: the Python code
builds `message_patterns = set()` and updates it with the matched pattern
names of every text block. -/
def messagePatterns (r : MsgResult) : List String :=
  (r.text_blocks.foldr (fun tb acc => tb.2 ++ acc) []).dedup

/-- Python `set.add` on a set of strings represented as a list. -/
def insertId (x : String) (ids : List String) : List String :=
  if x ∈ ids then ids else x :: ids

/-- Increment of a one-level counter dictionary at a key (the Python
`if k not in d: d[k] = 0; d[k] += 1` idiom). -/
def bumpCount (f : String → Nat) (k : String) : String → Nat :=
  fun x => if x = k then f k + 1 else f x

/-- Increment of a two-level counter dictionary (pattern name, then date). -/
def bumpDaily (f : String → String → Nat) (p d : String) :
    String → String → Nat :=
  fun p' d' => if p' = p ∧ d' = d then f p d + 1 else f p' d'

/-- Assignment of a two-level counter dictionary at one (pattern, date)
key (the Python `pattern_counts[name][today] = count`). -/
def setDaily (f : String → String → Nat) (p d : String) (v : Nat) :
    String → String → Nat :=
  fun p' d' => if p' = p ∧ d' = d then v else f p' d'

/-- Flattened sequence of (display project name, raw line) pairs produced
by the nested directory / file / line loops shared by the backfill and
the steady-state scan: dot-prefixed directories are skipped. -/
def linesOf (ps : List Project) : List (String × Line) :=
  ps.flatMap (fun proj =>
    if strStarts proj.dirName "." then []
    else proj.files.flatMap (fun f =>
      f.map (fun l => (get_project_display_name proj.dirName, l))))

/-- Nested scan loop shared by backfill and steady state: iterate over
project directories (skipping dot-prefixed ones), their files, and each
file's lines, threading a state through `step`. -/
def scanAll {σ : Type} (step : σ → String × Line → σ)
    (ps : List Project) (init : σ) : σ :=
  ps.foldl (fun st proj =>
    if strStarts proj.dirName "." then st
    else proj.files.foldl (fun st' f =>
      f.foldl (fun st'' l =>
        step st'' (get_project_display_name proj.dirName, l)) st') st) init

theorem foldl_map_pair {σ : Type} (step : σ → String × Line → σ)
    (pn : String) (f : List Line) (st : σ) :
    (f.map (fun l => (pn, l))).foldl step st
      = f.foldl (fun st' l => step st' (pn, l)) st := by
  induction f generalizing st with
  | nil => rfl
  | cons l rest ih => simp [List.foldl_cons, ih]

theorem foldl_flatMap_files {σ : Type} (step : σ → String × Line → σ)
    (pn : String) (fs : List (List Line)) (st : σ) :
    ((fs.flatMap (fun f => f.map (fun l => (pn, l)))).foldl step st)
      = fs.foldl (fun st' f =>
          f.foldl (fun st'' l => step st'' (pn, l)) st') st := by
  induction fs generalizing st with
  | nil => rfl
  | cons f rest ih =>
      simp only [List.flatMap_cons, List.foldl_append, List.foldl_cons]
      rw [foldl_map_pair, ih]

/-- The nested scan loop equals a single fold over the flattened line
sequence. -/
theorem scanAll_eq_foldl {σ : Type} (step : σ → String × Line → σ)
    (ps : List Project) (init : σ) :
    scanAll step ps init = (linesOf ps).foldl step init := by
  induction ps generalizing init with
  | nil => rfl
  | cons proj rest ih =>
      have hstep : scanAll step (proj :: rest) init
          = scanAll step rest
            (if strStarts proj.dirName "." then init
             else proj.files.foldl (fun st' f =>
               f.foldl (fun st'' l =>
                 step st'' (get_project_display_name proj.dirName, l)) st') init) := rfl
      have hlines : linesOf (proj :: rest)
          = (if strStarts proj.dirName "." then []
             else proj.files.flatMap (fun f =>
               f.map (fun l => (get_project_display_name proj.dirName, l))))
            ++ linesOf rest := by
        simp [linesOf, List.flatMap_cons]
      rw [hstep, ih, hlines, List.foldl_append]
      by_cases h : strStarts proj.dirName "." = true
      · simp [h]
      · simp only [h, Bool.false_eq_true, if_false]
        rw [foldl_flatMap_files]

/-! ## Backfill pass (`backfill_today_patterns`, watcher.py lines 138-199) -/

/-- In-memory state threaded through `backfill_today_patterns`: the fresh
per-pattern tallies for today, the transient per-backfill `seen_today`
set, and the two dictionaries the function mutates in place
(`processed_ids` and `project_counts`). -/
structure BackfillSt where
  pattern_matches : String → Nat
  seen_today : List String
  processed_ids : List String
  project_counts : String → Nat

/-- Inner loop of the backfill over the matched pattern names of one
message (watcher.py lines 185-192): bump the pattern tally, and for the
`"absolutely"` pattern also bump the project counter. -/
def backfillPatternsFold (pname : String) (mp : List String)
    (st : BackfillSt) : BackfillSt :=
  mp.foldl (fun st' p =>
    { st' with
      pattern_matches := bumpCount st'.pattern_matches p,
      project_counts :=
        if p = "absolutely" then bumpCount st'.project_counts pname
        else st'.project_counts }) st

/-- Per-line body of the backfill scan (watcher.py lines 156-195): skip
unparsable lines and entries `process_message_entry` rejects, keep only
today's messages, deduplicate within the pass via `seen_today`, mark the
id as processed for the main loop, then count the matched pattern names
once per message. -/
def backfillLine (pats : List String) (m : String → String → Bool)
    (today : String) (st : BackfillSt) (x : String × Line) : BackfillSt :=
  match x.2 with
  | none => st
  | some e =>
    match process_message_entry pats m e with
    | none => st
    | some r =>
      if r.date_str ≠ today then st
      else if r.msg_id ∈ st.seen_today then st
      else
        backfillPatternsFold x.1 (messagePatterns r)
          { st with
            seen_today := r.msg_id :: st.seen_today,
            processed_ids := insertId r.msg_id st.processed_ids }

/-- Startup backfill scan (`backfill_today_patterns`): returns the whole
final state (the Python function returns `pattern_matches` and mutates
`processed_ids` / `project_counts` in place).  `fs = none` models a
missing `CLAUDE_PROJECTS_BASE` root directory, in which case the function
returns the zero tallies without scanning. -/
def backfill_today_patterns (pats : List String) (m : String → String → Bool)
    (today : String) (fs : Option (List Project))
    (processed_ids : List String) (project_counts : String → Nat) :
    BackfillSt :=
  let init : BackfillSt :=
    { pattern_matches := fun _ => 0, seen_today := [],
      processed_ids := processed_ids, project_counts := project_counts }
  match fs with
  | none => init
  | some ps => scanAll (backfillLine pats m today) ps init

/-- Startup backfill of today's deduplicated total assistant message
count (`backfill_today_total_messages`, watcher.py lines 99-135): scan
every line, keep assistant entries with a usable (truthy) message id and
a parsable timestamp dated today, and count distinct ids.  Returns 0 when
the root directory is missing. -/
def backfill_today_total_messages (today : String)
    (fs : Option (List Project)) : Nat :=
  match fs with
  | none => 0
  | some ps =>
      (scanAll (fun (seen : List String) x =>
        match x.2 with
        | none => seen
        | some e =>
          if e.role = "assistant" then
            match msgIdOf e with
            | none => seen
            | some id =>
              match e.date with
              | none => seen
              | some d => if d = today ∧ id ∉ seen then id :: seen else seen
          else seen) ps []).length

/-! ## Steady-state loop (`main`, watcher.py lines 292-361) -/

/-- In-memory state of the steady-state loop: the four persistent
dictionaries plus the per-pass `new_matches_by_pattern` /
`new_total_messages` tallies. -/
structure LoopSt where
  processed_ids : List String
  project_counts : String → Nat
  pattern_counts : String → String → Nat
  total_messages_counts : String → Nat
  new_matches_by_pattern : String → Nat
  new_total_messages : Nat

/-- Inner loop of the steady-state scan over the matched pattern names of
one message (watcher.py lines 338-350): bump the per-pass tally and the
daily counter, and for the `"absolutely"` pattern also the project
counter. -/
def steadyPatternsFold (pname date : String) (mp : List String)
    (st : LoopSt) : LoopSt :=
  mp.foldl (fun st' p =>
    { st' with
      new_matches_by_pattern := bumpCount st'.new_matches_by_pattern p,
      pattern_counts := bumpDaily st'.pattern_counts p date,
      project_counts :=
        if p = "absolutely" then bumpCount st'.project_counts pname
        else st'.project_counts }) st

/-- Per-line body of the steady-state scan (watcher.py lines 305-359):
skip unparsable lines and rejected entries, skip ids already in the
persistent processed set, otherwise mark the id processed, bump the total
message counter for the entry's date, and count each matched pattern name
once. -/
def steadyLine (pats : List String) (m : String → String → Bool)
    (st : LoopSt) (x : String × Line) : LoopSt :=
  match x.2 with
  | none => st
  | some e =>
    match process_message_entry pats m e with
    | none => st
    | some r =>
      if r.msg_id ∈ st.processed_ids then st
      else
        steadyPatternsFold x.1 r.date_str (messagePatterns r)
          { st with
            processed_ids := insertId r.msg_id st.processed_ids,
            total_messages_counts :=
              bumpCount st.total_messages_counts r.date_str,
            new_total_messages := st.new_total_messages + 1 }

/-- One full steady-state pass over all current sources: the per-pass
tallies are reset at the top of the `while True` body, then every
project / file / line is scanned. -/
def steadyPass (pats : List String) (m : String → String → Bool)
    (ps : List Project) (st : LoopSt) : LoopSt :=
  scanAll (steadyLine pats m) ps
    { st with new_matches_by_pattern := fun _ => 0, new_total_messages := 0 }

/-- N successive steady-state passes. -/
def runPasses (pats : List String) (m : String → String → Bool)
    (ps : List Project) : Nat → LoopSt → LoopSt
  | 0, st => st
  | n + 1, st => runPasses pats m ps n (steadyPass pats m ps st)

/-! ## Persistence and upload events -/

/-- Observable side effects of the watcher: whole-file rewrites of the
four store files, a Reporting Sink call carrying its success flag, and
the missing-root-directory error print. -/
inductive Ev where
  | saveProjects : Ev
  | saveProcessed : Ev
  | savePattern : String → Ev
  | saveTotals : Ev
  | upload : Bool → Ev
  | printError : Ev
deriving DecidableEq, Repr

def isSave : Ev → Bool
  | .saveProjects => true
  | .saveProcessed => true
  | .savePattern _ => true
  | .saveTotals => true
  | _ => false

def isUpload : Ev → Bool
  | .upload _ => true
  | _ => false

/-- Condition `any(new_matches_by_pattern.values()) or new_total_messages
> 0` guarding the post-pass persistence block (watcher.py line 363). -/
def anyNew (pats : List String) (st : LoopSt) : Bool :=
  pats.any (fun p => st.new_matches_by_pattern p != 0)
    || decide (0 < st.new_total_messages)

/-- Post-pass block of the steady-state loop (watcher.py lines 363-391):
when the pass found new activity, save the project, processed-id, every
per-pattern, and total-message store, then call the Reporting Sink when
an API URL is configured.  The upload result `uploadOk` is only printed;
no local state depends on it. -/
def afterPass (pats : List String) (api_url : Option String)
    (uploadOk : Bool) (st : LoopSt) : LoopSt × List Ev :=
  if anyNew pats st then
    let saves := [Ev.saveProjects, Ev.saveProcessed]
      ++ pats.map Ev.savePattern ++ [Ev.saveTotals]
    match api_url with
    | some _ => (st, saves ++ [Ev.upload uploadOk])
    | none => (st, saves)
  else (st, [])

/-- One steady-state cycle: a full scan pass followed by the
persist-then-report block. -/
def steadyCycle (pats : List String) (m : String → String → Bool)
    (api_url : Option String) (uploadOk : Bool) (ps : List Project)
    (st : LoopSt) : LoopSt × List Ev :=
  afterPass pats api_url uploadOk (steadyPass pats m ps st)

/-! ## Startup sequence (`main`, watcher.py lines 202-289) -/

/-- State of `main` after the startup section and up to the decision
whether the steady-state loop starts: the in-memory dictionaries, the
fresh backfill tallies (the local `backfill_pattern_matches`), the
ordered trace of store writes / upload / error print, and whether the
`while True` loop is reached. -/
structure Startup where
  processed_ids : List String
  project_counts : String → Nat
  pattern_counts : String → String → Nat
  total_messages_counts : String → Nat
  fresh_pattern_matches : String → Nat
  events : List Ev
  loopStarted : Bool

/-- Startup sequence of `main` (watcher.py lines 236-289): load the
stores (passed in as `processed0`, `pc0`, `totals0`; `project_counts` is
reset to empty at line 250 before the backfill), overwrite today's total
message count with the fresh backfill value and save it, run the pattern
backfill, overwrite today's per-pattern counts only for patterns whose
fresh tally is positive (saving each such store), save the processed-id
and project-count stores, upload once when an API URL is configured, and
finally print an error and skip the loop when the root directory is
missing. -/
def startup (pats : List String) (m : String → String → Bool)
    (today : String) (api_url : Option String) (uploadOk : Bool)
    (fs : Option (List Project)) (processed0 : List String)
    (pc0 : String → String → Nat) (totals0 : String → Nat) : Startup :=
  let today_total := backfill_today_total_messages today fs
  let totals := fun d => if d = today then today_total else totals0 d
  let bst := backfill_today_patterns pats m today fs processed0 (fun _ => 0)
  let pc := pats.foldl (fun acc p =>
    if 0 < bst.pattern_matches p then
      setDaily acc p today (bst.pattern_matches p)
    else acc) pc0
  let patternSaves :=
    (pats.filter (fun p => decide (0 < bst.pattern_matches p))).map
      Ev.savePattern
  let evs := [Ev.saveTotals] ++ patternSaves
    ++ [Ev.saveProcessed, Ev.saveProjects]
    ++ (match api_url with | some _ => [Ev.upload uploadOk] | none => [])
    ++ (match fs with | none => [Ev.printError] | some _ => [])
  { processed_ids := bst.processed_ids,
    project_counts := bst.project_counts,
    pattern_counts := pc,
    total_messages_counts := totals,
    fresh_pattern_matches := bst.pattern_matches,
    events := evs,
    loopStarted := fs.isSome }

/-- In-memory loop state at entry of the `while True` loop, taken from
the startup state. -/
def loopInit (s : Startup) : LoopSt :=
  { processed_ids := s.processed_ids,
    project_counts := s.project_counts,
    pattern_counts := s.pattern_counts,
    total_messages_counts := s.total_messages_counts,
    new_matches_by_pattern := fun _ => 0,
    new_total_messages := 0 }

/-! ## Supervisor (`unified_watcher.py`, class WatcherProcess) -/

/-- Supervisor-side view of one watcher subprocess: whether the process
is currently alive, the lifetime restart counter, and the timestamps of
restarts retained by the sliding window. -/
structure WatcherProcess where
  alive : Bool
  restart_count : Nat
  restart_times : List Int
deriving DecidableEq, Repr

def max_restarts : Nat := 5

def restart_window : Int := 60

/-- Body of `WatcherProcess.check_and_restart` (unified_watcher.py lines
65-86): a live process is left alone; for a dead one the restart times
outside the 60-second window are dropped, and the process is restarted
(appending the current time and bumping the counter) unless at least
`max_restarts` retained times remain in the window.  Returns whether a
restart happened together with the updated record. -/
def check_and_restart (w : WatcherProcess) (current_time : Int) :
    Bool × WatcherProcess :=
  if w.alive then (false, w)
  else
    let times := w.restart_times.filter
      (fun t => decide (current_time - t < restart_window))
    if max_restarts ≤ times.length then
      (false, { w with restart_times := times })
    else
      (true, { w with alive := true,
                      restart_count := w.restart_count + 1,
                      restart_times := times ++ [current_time] })

/-! ## CLI argument scan (`main`, watcher.py lines 210-217; identical in
prompt_words/watcher.py lines 185-192) -/

/-- Embedding of the `for i, arg in enumerate(sys.argv)` scan: on
`--upload` with a following value, take that value as the URL, take the
value after it as the secret when it exists and does not start with
`--`, and stop (the Python `break`); on `--secret` with a following
value, record the secret and keep scanning from the next element (the
value itself is revisited, as the Python index loop does). -/
def parseLoop : List String → Option String → Option String →
    Option String × Option String
  | [], url, secret => (url, secret)
  | [_], url, secret => (url, secret)
  | arg :: next :: rest, url, secret =>
    if arg = "--upload" then
      (some next,
        match rest with
        | v :: _ => if strStarts v "--" then secret else some v
        | [] => secret)
    else if arg = "--secret" then
      parseLoop (next :: rest) url (some next)
    else
      parseLoop (next :: rest) url secret

/-- CLI scan entry point: the URL starts at the configured `SERVER_URL`
and the secret starts unset. -/
def parseArgs (argv : List String) (server_url : Option String) :
    Option String × Option String :=
  parseLoop argv server_url none

/-! ## Helper lemmas: id-set insertion -/

theorem insertId_subset (x : String) (ids : List String) :
    ids ⊆ insertId x ids := by
  intro a ha
  unfold insertId
  split
  · exact ha
  · exact List.mem_cons_of_mem _ ha

theorem mem_insertId_self (x : String) (ids : List String) :
    x ∈ insertId x ids := by
  unfold insertId
  split
  · assumption
  · exact List.mem_cons_self _ _

theorem insertId_nodup (x : String) (ids : List String) (h : ids.Nodup) :
    (insertId x ids).Nodup := by
  unfold insertId
  split
  · exact h
  · exact List.nodup_cons.mpr ⟨by assumption, h⟩

/-! ## Helper lemmas: inner pattern folds -/

theorem spf_processed_ids (pname date : String) (mp : List String)
    (st : LoopSt) :
    (steadyPatternsFold pname date mp st).processed_ids
      = st.processed_ids := by
  induction mp generalizing st with
  | nil => rfl
  | cons q rest ih => exact ih _

theorem spf_totals (pname date : String) (mp : List String) (st : LoopSt) :
    (steadyPatternsFold pname date mp st).total_messages_counts
      = st.total_messages_counts := by
  induction mp generalizing st with
  | nil => rfl
  | cons q rest ih => exact ih _

theorem spf_pattern_counts (pname date : String) (mp : List String)
    (st : LoopSt) (p d : String) :
    (steadyPatternsFold pname date mp st).pattern_counts p d
      = st.pattern_counts p d + (if d = date then mp.count p else 0) := by
  induction mp generalizing st with
  | nil => simp [steadyPatternsFold]
  | cons q rest ih =>
      have step : steadyPatternsFold pname date (q :: rest) st
          = steadyPatternsFold pname date rest
            { st with
              new_matches_by_pattern := bumpCount st.new_matches_by_pattern q,
              pattern_counts := bumpDaily st.pattern_counts q date,
              project_counts :=
                if q = "absolutely" then bumpCount st.project_counts pname
                else st.project_counts } := rfl
      rw [step, ih]
      simp only [bumpDaily, List.count_cons, beq_iff_eq]
      rcases eq_or_ne p q with rfl | hpq
      · rcases eq_or_ne d date with rfl | hdd
        · simp only [if_pos rfl, and_self]
          simp
          omega
        · simp [hdd]
      · rcases eq_or_ne d date with rfl | hdd
        · simp [hpq, Ne.symm hpq]
        · simp [hpq, hdd]

theorem bpf_seen_today (pname : String) (mp : List String)
    (st : BackfillSt) :
    (backfillPatternsFold pname mp st).seen_today = st.seen_today := by
  induction mp generalizing st with
  | nil => rfl
  | cons q rest ih => exact ih _

theorem bpf_processed_ids (pname : String) (mp : List String)
    (st : BackfillSt) :
    (backfillPatternsFold pname mp st).processed_ids
      = st.processed_ids := by
  induction mp generalizing st with
  | nil => rfl
  | cons q rest ih => exact ih _

theorem bpf_pattern_matches (pname : String) (mp : List String)
    (st : BackfillSt) (p : String) :
    (backfillPatternsFold pname mp st).pattern_matches p
      = st.pattern_matches p + mp.count p := by
  induction mp generalizing st with
  | nil => simp [backfillPatternsFold]
  | cons q rest ih =>
      have step : backfillPatternsFold pname (q :: rest) st
          = backfillPatternsFold pname rest
            { st with
              pattern_matches := bumpCount st.pattern_matches q,
              project_counts :=
                if q = "absolutely" then bumpCount st.project_counts pname
                else st.project_counts } := rfl
      rw [step, ih]
      simp only [bumpCount, List.count_cons, beq_iff_eq]
      rcases eq_or_ne p q with rfl | hpq
      · simp
        omega
      · simp [hpq, Ne.symm hpq]

/-! ## Helper lemmas: steady-state per-line behaviour -/

theorem steadyLine_none (pats : List String) (m : String → String → Bool)
    (st : LoopSt) (pn : String) :
    steadyLine pats m st (pn, none) = st := rfl

theorem steadyLine_reject (pats : List String) (m : String → String → Bool)
    (st : LoopSt) (pn : String) (e : Entry)
    (h : process_message_entry pats m e = none) :
    steadyLine pats m st (pn, some e) = st := by
  simp [steadyLine, h]

theorem steadyLine_skip (pats : List String) (m : String → String → Bool)
    (st : LoopSt) (pn : String) (e : Entry) (r : MsgResult)
    (h : process_message_entry pats m e = some r)
    (hmem : r.msg_id ∈ st.processed_ids) :
    steadyLine pats m st (pn, some e) = st := by
  simp [steadyLine, h, hmem]

theorem steadyLine_go (pats : List String) (m : String → String → Bool)
    (st : LoopSt) (pn : String) (e : Entry) (r : MsgResult)
    (h : process_message_entry pats m e = some r)
    (hmem : r.msg_id ∉ st.processed_ids) :
    steadyLine pats m st (pn, some e)
      = steadyPatternsFold pn r.date_str (messagePatterns r)
          { st with
            processed_ids := insertId r.msg_id st.processed_ids,
            total_messages_counts :=
              bumpCount st.total_messages_counts r.date_str,
            new_total_messages := st.new_total_messages + 1 } := by
  simp [steadyLine, h, hmem]

theorem steadyLine_processed_mono (pats : List String)
    (m : String → String → Bool) (st : LoopSt) (x : String × Line) :
    st.processed_ids ⊆ (steadyLine pats m st x).processed_ids := by
  obtain ⟨pn, l⟩ := x
  cases l with
  | none => exact fun a ha => ha
  | some e =>
      cases hp : process_message_entry pats m e with
      | none =>
          rw [steadyLine_reject pats m st pn e hp]
          exact fun a ha => ha
      | some r =>
          by_cases hmem : r.msg_id ∈ st.processed_ids
          · rw [steadyLine_skip pats m st pn e r hp hmem]
            exact fun a ha => ha
          · rw [steadyLine_go pats m st pn e r hp hmem, spf_processed_ids]
            exact insertId_subset _ _

theorem steadyLine_mem (pats : List String) (m : String → String → Bool)
    (st : LoopSt) (pn : String) (e : Entry) (r : MsgResult)
    (h : process_message_entry pats m e = some r) :
    r.msg_id ∈ (steadyLine pats m st (pn, some e)).processed_ids := by
  by_cases hmem : r.msg_id ∈ st.processed_ids
  · rw [steadyLine_skip pats m st pn e r h hmem]
    exact hmem
  · rw [steadyLine_go pats m st pn e r h hmem, spf_processed_ids]
    exact mem_insertId_self _ _

theorem steadyLine_pc_mono (pats : List String)
    (m : String → String → Bool) (st : LoopSt) (x : String × Line)
    (p d : String) :
    st.pattern_counts p d ≤ (steadyLine pats m st x).pattern_counts p d := by
  obtain ⟨pn, l⟩ := x
  cases l with
  | none => exact Nat.le_refl _
  | some e =>
      cases hp : process_message_entry pats m e with
      | none =>
          rw [steadyLine_reject pats m st pn e hp]
      | some r =>
          by_cases hmem : r.msg_id ∈ st.processed_ids
          · rw [steadyLine_skip pats m st pn e r hp hmem]
          · rw [steadyLine_go pats m st pn e r hp hmem, spf_pattern_counts]
            exact Nat.le_add_right _ _


theorem steadyLine_nodup (pats : List String) (m : String → String → Bool)
    (st : LoopSt) (x : String × Line) (h : st.processed_ids.Nodup) :
    (steadyLine pats m st x).processed_ids.Nodup := by
  obtain ⟨pn, l⟩ := x
  cases l with
  | none => exact h
  | some e =>
      cases hp : process_message_entry pats m e with
      | none =>
          rw [steadyLine_reject pats m st pn e hp]
          exact h
      | some r =>
          by_cases hmem : r.msg_id ∈ st.processed_ids
          · rw [steadyLine_skip pats m st pn e r hp hmem]
            exact h
          · rw [steadyLine_go pats m st pn e r hp hmem, spf_processed_ids]
            exact insertId_nodup _ _ h

/-- Line-level form of the reconciliation invariant: every parsable entry
of the line that `process_message_entry` accepts and that is dated today
already has its id in `ids`. -/
def LineMarked (pats : List String) (m : String → String → Bool)
    (today : String) (ids : List String) (x : String × Line) : Prop :=
  ∀ e r, x.2 = some e → process_message_entry pats m e = some r →
    r.date_str = today → r.msg_id ∈ ids

theorem steadyLine_today (pats : List String) (m : String → String → Bool)
    (today : String) (st : LoopSt) (x : String × Line) (p : String)
    (h : LineMarked pats m today st.processed_ids x) :
    (steadyLine pats m st x).pattern_counts p today
        = st.pattern_counts p today
    ∧ (steadyLine pats m st x).total_messages_counts today
        = st.total_messages_counts today := by
  obtain ⟨pn, l⟩ := x
  cases l with
  | none => exact ⟨rfl, rfl⟩
  | some e =>
      cases hp : process_message_entry pats m e with
      | none =>
          rw [steadyLine_reject pats m st pn e hp]
          exact ⟨rfl, rfl⟩
      | some r =>
          by_cases hmem : r.msg_id ∈ st.processed_ids
          · rw [steadyLine_skip pats m st pn e r hp hmem]
            exact ⟨rfl, rfl⟩
          · have hdate : r.date_str ≠ today := fun hd => hmem (h e r rfl hp hd)
            rw [steadyLine_go pats m st pn e r hp hmem]
            refine ⟨?_, ?_⟩
            · rw [spf_pattern_counts]
              simp [Ne.symm hdate]
            · rw [spf_totals]
              simp [bumpCount, Ne.symm hdate]

/-! ## Helper lemmas: steady-state fold behaviour -/

theorem foldSteady_processed_mono (pats : List String)
    (m : String → String → Bool) (L : List (String × Line)) (st : LoopSt) :
    st.processed_ids ⊆ (L.foldl (steadyLine pats m) st).processed_ids := by
  induction L generalizing st with
  | nil => exact fun a ha => ha
  | cons x rest ih =>
      exact fun a ha => ih _ (steadyLine_processed_mono pats m st x ha)

theorem foldSteady_pc_mono (pats : List String)
    (m : String → String → Bool) (L : List (String × Line)) (st : LoopSt)
    (p d : String) :
    st.pattern_counts p d
      ≤ (L.foldl (steadyLine pats m) st).pattern_counts p d := by
  induction L generalizing st with
  | nil => exact Nat.le_refl _
  | cons x rest ih =>
      exact Nat.le_trans (steadyLine_pc_mono pats m st x p d) (ih _)

theorem foldSteady_nodup (pats : List String)
    (m : String → String → Bool) (L : List (String × Line)) (st : LoopSt)
    (h : st.processed_ids.Nodup) :
    (L.foldl (steadyLine pats m) st).processed_ids.Nodup := by
  induction L generalizing st with
  | nil => exact h
  | cons x rest ih => exact ih _ (steadyLine_nodup pats m st x h)

theorem foldSteady_today (pats : List String)
    (m : String → String → Bool) (today : String)
    (L : List (String × Line)) (st : LoopSt) (p : String)
    (h : ∀ x ∈ L, LineMarked pats m today st.processed_ids x) :
    (L.foldl (steadyLine pats m) st).pattern_counts p today
        = st.pattern_counts p today
    ∧ (L.foldl (steadyLine pats m) st).total_messages_counts today
        = st.total_messages_counts today := by
  induction L generalizing st with
  | nil => exact ⟨rfl, rfl⟩
  | cons x rest ih =>
      have hx := steadyLine_today pats m today st x p
        (h x (List.mem_cons_self _ _))
      have hrest := ih (steadyLine pats m st x)
        (fun y hy e r he hp hd =>
          steadyLine_processed_mono pats m st x
            (h y (List.mem_cons_of_mem _ hy) e r he hp hd))
      exact ⟨hrest.1.trans hx.1, hrest.2.trans hx.2⟩

/-! ## Helper lemmas: backfill per-line behaviour -/

theorem backfillLine_none (pats : List String) (m : String → String → Bool)
    (today : String) (st : BackfillSt) (pn : String) :
    backfillLine pats m today st (pn, none) = st := rfl

theorem backfillLine_reject (pats : List String)
    (m : String → String → Bool) (today : String) (st : BackfillSt)
    (pn : String) (e : Entry)
    (h : process_message_entry pats m e = none) :
    backfillLine pats m today st (pn, some e) = st := by
  simp [backfillLine, h]

theorem backfillLine_skip_date (pats : List String)
    (m : String → String → Bool) (today : String) (st : BackfillSt)
    (pn : String) (e : Entry) (r : MsgResult)
    (h : process_message_entry pats m e = some r)
    (hd : r.date_str ≠ today) :
    backfillLine pats m today st (pn, some e) = st := by
  simp [backfillLine, h, hd]

theorem backfillLine_skip_seen (pats : List String)
    (m : String → String → Bool) (today : String) (st : BackfillSt)
    (pn : String) (e : Entry) (r : MsgResult)
    (h : process_message_entry pats m e = some r)
    (hd : r.date_str = today) (hseen : r.msg_id ∈ st.seen_today) :
    backfillLine pats m today st (pn, some e) = st := by
  simp [backfillLine, h, hd, hseen]

theorem backfillLine_go (pats : List String)
    (m : String → String → Bool) (today : String) (st : BackfillSt)
    (pn : String) (e : Entry) (r : MsgResult)
    (h : process_message_entry pats m e = some r)
    (hd : r.date_str = today) (hseen : r.msg_id ∉ st.seen_today) :
    backfillLine pats m today st (pn, some e)
      = backfillPatternsFold pn (messagePatterns r)
          { st with
            seen_today := r.msg_id :: st.seen_today,
            processed_ids := insertId r.msg_id st.processed_ids } := by
  simp [backfillLine, h, hd, hseen]

theorem backfillLine_seen_mono (pats : List String)
    (m : String → String → Bool) (today : String) (st : BackfillSt)
    (x : String × Line) :
    st.seen_today ⊆ (backfillLine pats m today st x).seen_today := by
  obtain ⟨pn, l⟩ := x
  cases l with
  | none => exact fun a ha => ha
  | some e =>
      cases hp : process_message_entry pats m e with
      | none =>
          rw [backfillLine_reject pats m today st pn e hp]
          exact fun a ha => ha
      | some r =>
          by_cases hd : r.date_str = today
          · by_cases hseen : r.msg_id ∈ st.seen_today
            · rw [backfillLine_skip_seen pats m today st pn e r hp hd hseen]
              exact fun a ha => ha
            · rw [backfillLine_go pats m today st pn e r hp hd hseen,
                bpf_seen_today]
              exact fun a ha => List.mem_cons_of_mem _ ha
          · rw [backfillLine_skip_date pats m today st pn e r hp hd]
            exact fun a ha => ha

theorem backfillLine_processed_mono (pats : List String)
    (m : String → String → Bool) (today : String) (st : BackfillSt)
    (x : String × Line) :
    st.processed_ids ⊆ (backfillLine pats m today st x).processed_ids := by
  obtain ⟨pn, l⟩ := x
  cases l with
  | none => exact fun a ha => ha
  | some e =>
      cases hp : process_message_entry pats m e with
      | none =>
          rw [backfillLine_reject pats m today st pn e hp]
          exact fun a ha => ha
      | some r =>
          by_cases hd : r.date_str = today
          · by_cases hseen : r.msg_id ∈ st.seen_today
            · rw [backfillLine_skip_seen pats m today st pn e r hp hd hseen]
              exact fun a ha => ha
            · rw [backfillLine_go pats m today st pn e r hp hd hseen,
                bpf_processed_ids]
              exact insertId_subset _ _
          · rw [backfillLine_skip_date pats m today st pn e r hp hd]
            exact fun a ha => ha

theorem backfillLine_mem_seen (pats : List String)
    (m : String → String → Bool) (today : String) (st : BackfillSt)
    (pn : String) (e : Entry) (r : MsgResult)
    (h : process_message_entry pats m e = some r)
    (hd : r.date_str = today) :
    r.msg_id ∈ (backfillLine pats m today st (pn, some e)).seen_today := by
  by_cases hseen : r.msg_id ∈ st.seen_today
  · rw [backfillLine_skip_seen pats m today st pn e r h hd hseen]
    exact hseen
  · rw [backfillLine_go pats m today st pn e r h hd hseen, bpf_seen_today]
    exact List.mem_cons_self _ _

theorem backfillLine_inv (pats : List String)
    (m : String → String → Bool) (today : String) (st : BackfillSt)
    (x : String × Line) (hinv : st.seen_today ⊆ st.processed_ids) :
    (backfillLine pats m today st x).seen_today
      ⊆ (backfillLine pats m today st x).processed_ids := by
  obtain ⟨pn, l⟩ := x
  cases l with
  | none => exact hinv
  | some e =>
      cases hp : process_message_entry pats m e with
      | none =>
          rw [backfillLine_reject pats m today st pn e hp]
          exact hinv
      | some r =>
          by_cases hd : r.date_str = today
          · by_cases hseen : r.msg_id ∈ st.seen_today
            · rw [backfillLine_skip_seen pats m today st pn e r hp hd hseen]
              exact hinv
            · rw [backfillLine_go pats m today st pn e r hp hd hseen,
                bpf_seen_today, bpf_processed_ids]
              intro a ha
              rcases List.mem_cons.mp ha with rfl | ha'
              · exact mem_insertId_self _ _
              · exact insertId_subset _ _ (hinv ha')
          · rw [backfillLine_skip_date pats m today st pn e r hp hd]
            exact hinv

theorem backfillLine_mem_processed (pats : List String)
    (m : String → String → Bool) (today : String) (st : BackfillSt)
    (pn : String) (e : Entry) (r : MsgResult)
    (hinv : st.seen_today ⊆ st.processed_ids)
    (h : process_message_entry pats m e = some r)
    (hd : r.date_str = today) :
    r.msg_id ∈ (backfillLine pats m today st (pn, some e)).processed_ids := by
  by_cases hseen : r.msg_id ∈ st.seen_today
  · rw [backfillLine_skip_seen pats m today st pn e r h hd hseen]
    exact hinv hseen
  · rw [backfillLine_go pats m today st pn e r h hd hseen,
      bpf_processed_ids]
    exact mem_insertId_self _ _

/-! ## Helper lemmas: backfill fold behaviour -/

theorem foldBackfill_processed_mono (pats : List String)
    (m : String → String → Bool) (today : String)
    (L : List (String × Line)) (st : BackfillSt) :
    st.processed_ids
      ⊆ (L.foldl (backfillLine pats m today) st).processed_ids := by
  induction L generalizing st with
  | nil => exact fun a ha => ha
  | cons x rest ih =>
      exact fun a ha =>
        ih _ (backfillLine_processed_mono pats m today st x ha)

theorem foldBackfill_seen_mono (pats : List String)
    (m : String → String → Bool) (today : String)
    (L : List (String × Line)) (st : BackfillSt) :
    st.seen_today ⊆ (L.foldl (backfillLine pats m today) st).seen_today := by
  induction L generalizing st with
  | nil => exact fun a ha => ha
  | cons x rest ih =>
      exact fun a ha => ih _ (backfillLine_seen_mono pats m today st x ha)

theorem foldBackfill_marks (pats : List String)
    (m : String → String → Bool) (today : String)
    (L : List (String × Line)) (st : BackfillSt)
    (hinv : st.seen_today ⊆ st.processed_ids)
    (pn : String) (e : Entry) (r : MsgResult)
    (hx : (pn, some e) ∈ L)
    (hp : process_message_entry pats m e = some r)
    (hd : r.date_str = today) :
    r.msg_id ∈ (L.foldl (backfillLine pats m today) st).processed_ids := by
  induction L generalizing st with
  | nil => cases hx
  | cons y rest ih =>
      rcases List.mem_cons.mp hx with heq | hmem
      · subst heq
        exact foldBackfill_processed_mono pats m today rest _
          (backfillLine_mem_processed pats m today st pn e r hinv hp hd)
      · exact ih _ (backfillLine_inv pats m today st y hinv) hmem

/-! ## Pass-level lemmas -/

theorem steadyPass_eq_foldl (pats : List String)
    (m : String → String → Bool) (ps : List Project) (st : LoopSt) :
    steadyPass pats m ps st
      = (linesOf ps).foldl (steadyLine pats m)
          { st with new_matches_by_pattern := fun _ => 0,
                    new_total_messages := 0 } := by
  unfold steadyPass
  exact scanAll_eq_foldl _ _ _

theorem backfill_eq_foldl (pats : List String)
    (m : String → String → Bool) (today : String) (ps : List Project)
    (pids : List String) (pcs : String → Nat) :
    backfill_today_patterns pats m today (some ps) pids pcs
      = (linesOf ps).foldl (backfillLine pats m today)
          { pattern_matches := fun _ => 0, seen_today := [],
            processed_ids := pids, project_counts := pcs } := by
  unfold backfill_today_patterns
  exact scanAll_eq_foldl _ _ _

/-- Reconciliation invariant for a whole source tree: every line of the
tree that parses, that `process_message_entry` accepts, and that is dated
today already has its message id in `ids`. -/
def TodayMarked (pats : List String) (m : String → String → Bool)
    (today : String) (ps : List Project) (ids : List String) : Prop :=
  ∀ x ∈ linesOf ps, LineMarked pats m today ids x

theorem TodayMarked_mono (pats : List String) (m : String → String → Bool)
    (today : String) (ps : List Project) (ids ids' : List String)
    (h : TodayMarked pats m today ps ids) (hsub : ids ⊆ ids') :
    TodayMarked pats m today ps ids' :=
  fun x hx e r he hp hd => hsub (h x hx e r he hp hd)

theorem steadyPass_processed_mono (pats : List String)
    (m : String → String → Bool) (ps : List Project) (st : LoopSt) :
    st.processed_ids ⊆ (steadyPass pats m ps st).processed_ids := by
  rw [steadyPass_eq_foldl]
  exact foldSteady_processed_mono pats m (linesOf ps)
    { st with new_matches_by_pattern := fun _ => 0, new_total_messages := 0 }

theorem steadyPass_pc_mono (pats : List String)
    (m : String → String → Bool) (ps : List Project) (st : LoopSt)
    (p d : String) :
    st.pattern_counts p d ≤ (steadyPass pats m ps st).pattern_counts p d := by
  rw [steadyPass_eq_foldl]
  exact foldSteady_pc_mono pats m (linesOf ps)
    { st with new_matches_by_pattern := fun _ => 0, new_total_messages := 0 }
    p d

theorem steadyPass_today (pats : List String)
    (m : String → String → Bool) (today : String) (ps : List Project)
    (st : LoopSt) (p : String)
    (h : TodayMarked pats m today ps st.processed_ids) :
    (steadyPass pats m ps st).pattern_counts p today
        = st.pattern_counts p today
    ∧ (steadyPass pats m ps st).total_messages_counts today
        = st.total_messages_counts today := by
  rw [steadyPass_eq_foldl]
  exact foldSteady_today pats m today (linesOf ps) _ p (fun x hx => h x hx)

theorem steadyPass_marked (pats : List String)
    (m : String → String → Bool) (today : String) (ps : List Project)
    (st : LoopSt) (h : TodayMarked pats m today ps st.processed_ids) :
    TodayMarked pats m today ps (steadyPass pats m ps st).processed_ids :=
  TodayMarked_mono pats m today ps _ _ h
    (steadyPass_processed_mono pats m ps st)

theorem runPasses_succ (pats : List String) (m : String → String → Bool)
    (ps : List Project) (n : Nat) (st : LoopSt) :
    runPasses pats m ps (n + 1) st
      = steadyPass pats m ps (runPasses pats m ps n st) := by
  induction n generalizing st with
  | zero => rfl
  | succ k ih => exact ih (steadyPass pats m ps st)

theorem runPasses_today (pats : List String) (m : String → String → Bool)
    (today : String) (ps : List Project) (N : Nat) (st : LoopSt)
    (p : String) (h : TodayMarked pats m today ps st.processed_ids) :
    (runPasses pats m ps N st).pattern_counts p today
        = st.pattern_counts p today
    ∧ (runPasses pats m ps N st).total_messages_counts today
        = st.total_messages_counts today := by
  induction N generalizing st with
  | zero => exact ⟨rfl, rfl⟩
  | succ n ih =>
      have hpass := steadyPass_today pats m today ps st p h
      have hnext := ih (steadyPass pats m ps st)
        (steadyPass_marked pats m today ps st h)
      exact ⟨hnext.1.trans hpass.1, hnext.2.trans hpass.2⟩

/-! ## Startup-level lemmas -/

theorem setDaily_other (f : String → String → Nat) (p d : String) (v : Nat)
    (p' d' : String) (h : ¬(p' = p ∧ d' = d)) :
    setDaily f p d v p' d' = f p' d' := by
  simp [setDaily, h]

theorem overwrite_fold (pats : List String) (bm : String → Nat)
    (today : String) (pc0 : String → String → Nat) (p d : String) :
    (pats.foldl (fun acc q =>
        if 0 < bm q then setDaily acc q today (bm q) else acc) pc0) p d
      = if p ∈ pats ∧ d = today ∧ 0 < bm p then bm p else pc0 p d := by
  induction pats generalizing pc0 with
  | nil => simp
  | cons q rest ih =>
      rw [List.foldl_cons, ih]
      have hacc : (if 0 < bm q then setDaily pc0 q today (bm q) else pc0) p d
          = if p = q ∧ d = today ∧ 0 < bm q then bm q else pc0 p d := by
        by_cases h1 : 0 < bm q
        · simp only [h1, if_true, and_true]
          by_cases h2 : p = q ∧ d = today
          · obtain ⟨rfl, rfl⟩ := h2
            simp [setDaily]
          · simp [setDaily, h2]
        · simp [h1]
      rw [hacc]
      simp only [List.mem_cons]
      by_cases hd : d = today
      · by_cases hp0 : 0 < bm p
        · by_cases hmem : p ∈ rest
          · simp [hmem, hd, hp0]
          · by_cases hpq : p = q
            · subst hpq
              simp [hmem, hd, hp0]
            · simp [hmem, hd, hp0, hpq]
        · by_cases hpq : p = q
          · subst hpq
            simp [hd, hp0]
          · simp [hp0, hpq]
      · simp [hd]

theorem startup_pattern_counts (pats : List String)
    (m : String → String → Bool) (today : String) (api_url : Option String)
    (uploadOk : Bool) (fs : Option (List Project))
    (processed0 : List String) (pc0 : String → String → Nat)
    (totals0 : String → Nat) (p d : String) :
    (startup pats m today api_url uploadOk fs processed0 pc0
        totals0).pattern_counts p d
      = if p ∈ pats ∧ d = today
            ∧ 0 < (backfill_today_patterns pats m today fs processed0
                    (fun _ => 0)).pattern_matches p
        then (backfill_today_patterns pats m today fs processed0
                (fun _ => 0)).pattern_matches p
        else pc0 p d :=
  overwrite_fold pats _ today pc0 p d

theorem messagePatterns_nodup (r : MsgResult) :
    (messagePatterns r).Nodup :=
  List.nodup_dedup _

/-- Every line of the tree that the backfill would count for today ends
up marked in the processed-id set the startup hands to the loop. -/
theorem startup_marked (pats : List String) (m : String → String → Bool)
    (today : String) (api_url : Option String) (u : Bool)
    (ps : List Project) (processed0 : List String)
    (pc0 : String → String → Nat) (totals0 : String → Nat) :
    TodayMarked pats m today ps
      (startup pats m today api_url u (some ps) processed0 pc0
        totals0).processed_ids := by
  intro x hx e r he hp hd
  obtain ⟨pn, l⟩ := x
  have he' : l = some e := he
  subst he'
  have hstart : (startup pats m today api_url u (some ps) processed0 pc0
        totals0).processed_ids
      = ((linesOf ps).foldl (backfillLine pats m today)
          { pattern_matches := fun _ => 0, seen_today := [],
            processed_ids := processed0,
            project_counts := fun _ => 0 }).processed_ids := by
    rw [← backfill_eq_foldl]
    rfl
  rw [hstart]
  exact foldBackfill_marks pats m today (linesOf ps)
    { pattern_matches := fun _ => 0, seen_today := [],
      processed_ids := processed0, project_counts := fun _ => 0 }
    (fun a ha => absurd ha (List.not_mem_nil a)) pn e r hx hp hd

/-! ## Shared concrete demo values used by witnesses -/

/-- Matcher used by concrete witnesses: a pattern matches a text block
exactly when the block equals the pattern name. -/
def mEq : String → String → Bool := fun p t => p = t

/-- Loop state with empty stores. -/
def stZero : LoopSt :=
  { processed_ids := [], project_counts := fun _ => 0,
    pattern_counts := fun _ _ => 0, total_messages_counts := fun _ => 0,
    new_matches_by_pattern := fun _ => 0, new_total_messages := 0 }

/-- Backfill state with empty stores. -/
def bstZero : BackfillSt :=
  { pattern_matches := fun _ => 0, seen_today := [], processed_ids := [],
    project_counts := fun _ => 0 }

/-- Demo assistant entry: id `m1`, dated 2024-01-01, three text blocks
matching pattern `pa` twice and pattern `pb` once under `mEq`. -/
def eDemo : Entry :=
  { role := "assistant", uuid := some "m1", requestId := none,
    date := some "2024-01-01", textBlocks := ["pa", "pb", "pa"] }

/-- Result `process_message_entry ["pa", "pb"] mEq eDemo` computes. -/
def rDemo : MsgResult :=
  { msg_id := "m1", date_str := "2024-01-01",
    text_blocks := [("pa", ["pa"]), ("pb", ["pb"]), ("pa", ["pa"])] }

/-! ## Claim theorems -/

/-- C3: running the startup backfill and then any number `N` of
steady-state passes over the same fixed source tree leaves the "today"
bucket of every per-pattern daily counter and of the total-message daily
counter exactly as the backfill alone left them: the passes find nothing
new for today because the backfill inserted every touched message id
into the processed-id set. -/
theorem backfill_then_passes_today_stable (pats : List String)
    (m : String → String → Bool) (today : String)
    (api_url : Option String) (u : Bool) (ps : List Project)
    (processed0 : List String) (pc0 : String → String → Nat)
    (totals0 : String → Nat) (N : Nat) (p : String) :
    (runPasses pats m ps N
        (loopInit (startup pats m today api_url u (some ps) processed0
          pc0 totals0))).pattern_counts p today
      = (loopInit (startup pats m today api_url u (some ps) processed0
          pc0 totals0)).pattern_counts p today
    ∧ (runPasses pats m ps N
        (loopInit (startup pats m today api_url u (some ps) processed0
          pc0 totals0))).total_messages_counts today
      = (loopInit (startup pats m today api_url u (some ps) processed0
          pc0 totals0)).total_messages_counts today :=
  runPasses_today pats m today ps N _ p
    (startup_marked pats m today api_url u ps processed0 pc0 totals0)

/-- C2: a message id occurring on two log lines contributes exactly once.
In the steady-state scan, deleting the second line with the same
extracted message id does not change the resulting state at all; the
processed-id set stays duplicate-free; and the same deletion invariance
holds for the backfill scan whenever the first occurrence is dated
today. -/
theorem dedup_exactly_once (pats : List String)
    (m : String → String → Bool) (today : String)
    (L1 L2 L3 : List (String × Line)) (pn pn' : String) (e e' : Entry)
    (r r' : MsgResult) (st : LoopSt) (bst : BackfillSt)
    (hp : process_message_entry pats m e = some r)
    (hp' : process_message_entry pats m e' = some r')
    (hid : r'.msg_id = r.msg_id) :
    ((L1 ++ (pn, some e) :: L2 ++ (pn', some e') :: L3).foldl
        (steadyLine pats m) st
      = (L1 ++ (pn, some e) :: L2 ++ L3).foldl (steadyLine pats m) st)
    ∧ (st.processed_ids.Nodup →
        ((L1 ++ (pn, some e) :: L2 ++ (pn', some e') :: L3).foldl
          (steadyLine pats m) st).processed_ids.Nodup)
    ∧ (r.date_str = today →
        (L1 ++ (pn, some e) :: L2 ++ (pn', some e') :: L3).foldl
            (backfillLine pats m today) bst
          = (L1 ++ (pn, some e) :: L2 ++ L3).foldl
              (backfillLine pats m today) bst) := by
  refine ⟨?_, ?_, ?_⟩
  · simp only [List.foldl_append, List.foldl_cons]
    congr 1
    have hm : r'.msg_id ∈ (L2.foldl (steadyLine pats m)
        (steadyLine pats m (L1.foldl (steadyLine pats m) st)
          (pn, some e))).processed_ids := by
      rw [hid]
      exact foldSteady_processed_mono pats m L2 _
        (steadyLine_mem pats m _ pn e r hp)
    exact steadyLine_skip pats m _ pn' e' r' hp' hm
  · intro hnd
    exact foldSteady_nodup pats m _ st hnd
  · intro hd
    simp only [List.foldl_append, List.foldl_cons]
    congr 1
    by_cases hd' : r'.date_str = today
    · have hm : r'.msg_id ∈ (L2.foldl (backfillLine pats m today)
          (backfillLine pats m today
            (L1.foldl (backfillLine pats m today) bst)
            (pn, some e))).seen_today := by
        rw [hid]
        exact foldBackfill_seen_mono pats m today L2 _
          (backfillLine_mem_seen pats m today _ pn e r hp hd)
      exact backfillLine_skip_seen pats m today _ pn' e' r' hp' hd' hm
    · exact backfillLine_skip_date pats m today _ pn' e' r' hp' hd'

/-- C2 witness: concrete duplicate pair of lines carrying id `m1`. -/
theorem dedup_exactly_once_witness :
    (([((("proj" : String), (some eDemo : Line))),
        (("proj2" : String), (some eDemo : Line))].foldl
        (steadyLine ["pa", "pb"] mEq) stZero)
      = ([(("proj" : String), (some eDemo : Line))].foldl
          (steadyLine ["pa", "pb"] mEq) stZero))
    ∧ (([((("proj" : String), (some eDemo : Line))),
          (("proj2" : String), (some eDemo : Line))].foldl
          (steadyLine ["pa", "pb"] mEq) stZero).processed_ids.Nodup)
    ∧ (([((("proj" : String), (some eDemo : Line))),
          (("proj2" : String), (some eDemo : Line))].foldl
          (backfillLine ["pa", "pb"] mEq "2024-01-01") bstZero)
        = ([(("proj" : String), (some eDemo : Line))].foldl
            (backfillLine ["pa", "pb"] mEq "2024-01-01") bstZero)) := by
  have T := dedup_exactly_once ["pa", "pb"] mEq "2024-01-01"
    [] [] [] "proj" "proj2" eDemo eDemo rDemo rDemo stZero bstZero
    rfl rfl rfl
  exact ⟨T.1, T.2.1 List.nodup_nil, T.2.2 rfl⟩

/-- C4: a message matching several tracked patterns bumps the
total-message counter by exactly 1, bumps the daily counter of each
matched pattern name by exactly 1 (once per message even when a pattern
matches in several text blocks), leaves every unmatched pattern's daily
counter untouched, and the backfill tallies behave the same way. -/
theorem pattern_independence (pats : List String)
    (m : String → String → Bool) (today pn : String) (e : Entry)
    (r : MsgResult) (st : LoopSt) (bst : BackfillSt)
    (hp : process_message_entry pats m e = some r)
    (hnew : r.msg_id ∉ st.processed_ids)
    (hd : r.date_str = today) (hseen : r.msg_id ∉ bst.seen_today) :
    (steadyLine pats m st (pn, some e)).total_messages_counts r.date_str
        = st.total_messages_counts r.date_str + 1
    ∧ (∀ p ∈ messagePatterns r,
        (steadyLine pats m st (pn, some e)).pattern_counts p r.date_str
          = st.pattern_counts p r.date_str + 1)
    ∧ (∀ p, p ∉ messagePatterns r → ∀ d,
        (steadyLine pats m st (pn, some e)).pattern_counts p d
          = st.pattern_counts p d)
    ∧ (∀ p ∈ messagePatterns r,
        (backfillLine pats m today bst (pn, some e)).pattern_matches p
          = bst.pattern_matches p + 1) := by
  rw [steadyLine_go pats m st pn e r hp hnew,
    backfillLine_go pats m today bst pn e r hp hd hseen]
  refine ⟨?_, ?_, ?_, ?_⟩
  · rw [spf_totals]
    simp [bumpCount]
  · intro p hpmem
    rw [spf_pattern_counts]
    simp [List.count_eq_one_of_mem (messagePatterns_nodup r) hpmem]
  · intro p hpmem d
    rw [spf_pattern_counts]
    simp [List.count_eq_zero_of_not_mem hpmem]
  · intro p hpmem
    rw [bpf_pattern_matches]
    simp [List.count_eq_one_of_mem (messagePatterns_nodup r) hpmem]

/-- C4 witness: `eDemo` matches `pa` in two blocks and `pb` in one; the
total counter gains exactly 1 and each of the two pattern counters gains
exactly 1, from the empty state. -/
theorem pattern_independence_witness :
    ((steadyLine ["pa", "pb"] mEq stZero
        ("proj", some eDemo)).total_messages_counts "2024-01-01"
      = stZero.total_messages_counts "2024-01-01" + 1)
    ∧ ((steadyLine ["pa", "pb"] mEq stZero
        ("proj", some eDemo)).pattern_counts "pa" "2024-01-01"
      = stZero.pattern_counts "pa" "2024-01-01" + 1)
    ∧ ((steadyLine ["pa", "pb"] mEq stZero
        ("proj", some eDemo)).pattern_counts "pb" "2024-01-01"
      = stZero.pattern_counts "pb" "2024-01-01" + 1)
    ∧ ((backfillLine ["pa", "pb"] mEq "2024-01-01" bstZero
        ("proj", some eDemo)).pattern_matches "pa"
      = bstZero.pattern_matches "pa" + 1) := by
  have T := pattern_independence ["pa", "pb"] mEq "2024-01-01" "proj"
    eDemo rDemo stZero bstZero rfl (by decide) rfl (by decide)
  exact ⟨T.1, T.2.1 "pa" (by decide), T.2.1 "pb" (by decide),
    T.2.2.2 "pa" (by decide)⟩

/-! ## More shared demo values -/

/-- One-project source tree holding a single log file with the single
line `eDemo`. -/
def psDemo : List Project := [{ dirName := "proj", files := [[some eDemo]] }]

/-- Stale stored per-pattern daily counters: pattern `pa` already holds 5
for 2024-01-01 from a previous run. -/
def stalePc : String → String → Nat :=
  fun p d => if p = "pa" ∧ d = "2024-01-01" then 5 else 0

/-- Demo assistant entry with a different id `m2`, same date, one block
matching `pa`. -/
def eDemo2 : Entry :=
  { role := "assistant", uuid := some "m2", requestId := none,
    date := some "2024-01-01", textBlocks := ["pa"] }

/-- Result `process_message_entry ["pa"] mEq eDemo2` computes. -/
def rDemo2 : MsgResult :=
  { msg_id := "m2", date_str := "2024-01-01",
    text_blocks := [("pa", ["pa"])] }

/-- C1 counterexample: with a stale stored today-count of 5 for pattern
`absolutely` and a startup backfill over an empty source tree computing a
fresh total of 0, the stored today value remains 5 instead of being
overwritten with the freshly computed total 0: the overwrite is guarded
by `if count > 0`. -/
theorem backfill_overwrite_counterexample :
    ((startup ["absolutely"] mEq "2024-01-01" none true (some []) []
        (fun p d => if p = "absolutely" ∧ d = "2024-01-01" then 5 else 0)
        (fun _ => 0)).fresh_pattern_matches "absolutely" = 0)
    ∧ ((startup ["absolutely"] mEq "2024-01-01" none true (some []) []
        (fun p d => if p = "absolutely" ∧ d = "2024-01-01" then 5 else 0)
        (fun _ => 0)).pattern_counts "absolutely" "2024-01-01" = 5) :=
  ⟨rfl, rfl⟩

/-- C1 amended: after the startup backfill, the stored today value of a
tracked pattern equals the freshly computed total whenever that total is
positive (overwritten, not added to — a stale 5 with 3 fresh matches
becomes exactly 3), while a pattern whose fresh total is 0 keeps its
previously stored today value; a subsequent steady-state scan of one new
matching message then adds exactly 1 on top of the stored value. -/
theorem backfill_overwrite_amended (pats : List String)
    (m : String → String → Bool) (today : String)
    (api_url : Option String) (u : Bool) (ps : List Project)
    (processed0 : List String) (pc0 : String → String → Nat)
    (totals0 : String → Nat) (p : String) (hp : p ∈ pats) :
    (0 < (startup pats m today api_url u (some ps) processed0 pc0
          totals0).fresh_pattern_matches p →
      (startup pats m today api_url u (some ps) processed0 pc0
          totals0).pattern_counts p today
        = (startup pats m today api_url u (some ps) processed0 pc0
            totals0).fresh_pattern_matches p)
    ∧ ((startup pats m today api_url u (some ps) processed0 pc0
          totals0).fresh_pattern_matches p = 0 →
        (startup pats m today api_url u (some ps) processed0 pc0
            totals0).pattern_counts p today = pc0 p today)
    ∧ (∀ (st : LoopSt) (pn : String) (e : Entry) (r : MsgResult),
        process_message_entry pats m e = some r →
        r.msg_id ∉ st.processed_ids → r.date_str = today →
        p ∈ messagePatterns r →
        (steadyLine pats m st (pn, some e)).pattern_counts p today
          = st.pattern_counts p today + 1) := by
  refine ⟨?_, ?_, ?_⟩
  · intro hpos
    rw [startup_pattern_counts]
    simp only [hp, true_and, and_true]
    have : (backfill_today_patterns pats m today (some ps) processed0
        (fun _ => 0)).pattern_matches p
        = (startup pats m today api_url u (some ps) processed0 pc0
            totals0).fresh_pattern_matches p := rfl
    rw [this]
    simp [hpos]
  · intro hzero
    rw [startup_pattern_counts]
    have : (backfill_today_patterns pats m today (some ps) processed0
        (fun _ => 0)).pattern_matches p
        = (startup pats m today api_url u (some ps) processed0 pc0
            totals0).fresh_pattern_matches p := rfl
    rw [this, hzero]
    simp
  · intro st pn e r hpe hnew hdr hpm
    rw [steadyLine_go pats m st pn e r hpe hnew, spf_pattern_counts]
    rw [hdr]
    simp [List.count_eq_one_of_mem (messagePatterns_nodup r) hpm]

/-- C1 amended witness: over `psDemo` the fresh total for `pa` is 1, so
the stale stored 5 is overwritten with 1; a steady-state scan of the new
message `m2` then makes it 2 from the loop state; and from the empty
state a new matching message adds exactly 1. -/
theorem backfill_overwrite_amended_witness :
    ((startup ["pa"] mEq "2024-01-01" none true (some psDemo) [] stalePc
        (fun _ => 0)).pattern_counts "pa" "2024-01-01"
      = (startup ["pa"] mEq "2024-01-01" none true (some psDemo) []
          stalePc (fun _ => 0)).fresh_pattern_matches "pa")
    ∧ ((steadyLine ["pa"] mEq stZero
        ("proj", some eDemo2)).pattern_counts "pa" "2024-01-01"
      = stZero.pattern_counts "pa" "2024-01-01" + 1) := by
  have T := backfill_overwrite_amended ["pa"] mEq "2024-01-01" none true
    psDemo [] stalePc (fun _ => 0) "pa" (by decide)
  exact ⟨T.1 (by decide), T.2.2 stZero "proj" eDemo2 rDemo2 rfl
    (by decide) rfl (by decide)⟩

/-- C5: monotonicity of the per-pattern daily counters: every
steady-state pass only increases any stored value (so after the single
startup overwrite of today, today's value is non-decreasing for the rest
of the run), and the startup itself leaves every date other than today
exactly as it was loaded. -/
theorem daily_counter_monotonic (pats : List String)
    (m : String → String → Bool) (today : String)
    (api_url : Option String) (u : Bool) (ps : List Project)
    (processed0 : List String) (pc0 : String → String → Nat)
    (totals0 : String → Nat) (N : Nat) (p d : String) :
    ((runPasses pats m ps N
        (loopInit (startup pats m today api_url u (some ps) processed0
          pc0 totals0))).pattern_counts p d
      ≤ (runPasses pats m ps (N + 1)
          (loopInit (startup pats m today api_url u (some ps) processed0
            pc0 totals0))).pattern_counts p d)
    ∧ (d ≠ today →
        (startup pats m today api_url u (some ps) processed0 pc0
            totals0).pattern_counts p d = pc0 p d) := by
  constructor
  · rw [runPasses_succ]
    exact steadyPass_pc_mono pats m ps _ p d
  · intro hd
    rw [startup_pattern_counts]
    simp [hd]

/-- C5 witness: one pass over `psDemo` from the startup state does not
decrease the stored `pa` count for today, and the startup left the value
stored for 2024-01-02 (a date other than today) untouched at 0. -/
theorem daily_counter_monotonic_witness :
    ((runPasses ["pa"] mEq psDemo 0
        (loopInit (startup ["pa"] mEq "2024-01-01" none true (some psDemo)
          [] stalePc (fun _ => 0)))).pattern_counts "pa" "2024-01-01"
      ≤ (runPasses ["pa"] mEq psDemo 1
          (loopInit (startup ["pa"] mEq "2024-01-01" none true
            (some psDemo) [] stalePc (fun _ => 0)))).pattern_counts "pa"
          "2024-01-01")
    ∧ ((startup ["pa"] mEq "2024-01-01" none true (some psDemo) [] stalePc
        (fun _ => 0)).pattern_counts "pa" "2024-01-02"
      = stalePc "pa" "2024-01-02") := by
  have T := daily_counter_monotonic ["pa"] mEq "2024-01-01" none true
    psDemo [] stalePc (fun _ => 0) 0 "pa" "2024-01-02"
  have T2 := daily_counter_monotonic ["pa"] mEq "2024-01-01" none true
    psDemo [] stalePc (fun _ => 0) 0 "pa" "2024-01-01"
  exact ⟨T2.1, T.2 (by decide)⟩

/-- C6 counterexample: with the scan root directory missing and a stored
total of 7 for today, the startup still produces a nonempty store-write
trace (it rewrites the total-message, processed-id and project-count
stores) and overwrites today's stored total-message count with 0,
contradicting "performs no counting operations, and exits without
writing any store file". -/
theorem missing_root_counterexample :
    ((startup ["pa"] mEq "2024-01-01" none true none [] (fun _ _ => 0)
        (fun d => if d = "2024-01-01" then 7 else 0)).events ≠ [])
    ∧ ((startup ["pa"] mEq "2024-01-01" none true none [] (fun _ _ => 0)
        (fun d => if d = "2024-01-01" then 7 else 0)).total_messages_counts
          "2024-01-01" = 0)
    ∧ ((startup ["pa"] mEq "2024-01-01" none true none [] (fun _ _ => 0)
        (fun d => if d = "2024-01-01" then 7 else 0)).loopStarted
          = false) := by
  refine ⟨by decide, rfl, rfl⟩

/-- C6 amended: when the scan root directory is missing at startup the
engine prints the error and the steady-state loop does not start, and
the backfill finds nothing — but before the directory check the engine
still writes the total-message store (overwriting today's stored total
with 0), the processed-id store (unchanged) and the project-count store
(reset to empty); no per-pattern store is written and no pattern counter
changes. -/
theorem missing_root_amended (pats : List String)
    (m : String → String → Bool) (today : String) (u : Bool)
    (processed0 : List String) (pc0 : String → String → Nat)
    (totals0 : String → Nat) :
    ((startup pats m today none u none processed0 pc0
        totals0).loopStarted = false)
    ∧ ((startup pats m today none u none processed0 pc0 totals0).events
      = [Ev.saveTotals, Ev.saveProcessed, Ev.saveProjects, Ev.printError])
    ∧ ((startup pats m today none u none processed0 pc0
        totals0).total_messages_counts
      = fun d => if d = today then 0 else totals0 d)
    ∧ ((startup pats m today none u none processed0 pc0
        totals0).pattern_counts = pc0)
    ∧ ((startup pats m today none u none processed0 pc0
        totals0).processed_ids = processed0)
    ∧ ((startup pats m today none u none processed0 pc0
        totals0).project_counts = fun _ => 0) := by
  refine ⟨rfl, ?_, rfl, ?_, rfl, rfl⟩
  · show [Ev.saveTotals]
        ++ (pats.filter (fun p => decide (0 < (0 : Nat)))).map Ev.savePattern
        ++ [Ev.saveProcessed, Ev.saveProjects] ++ [] ++ [Ev.printError]
      = [Ev.saveTotals, Ev.saveProcessed, Ev.saveProjects, Ev.printError]
    simp
  · funext p d
    rw [startup_pattern_counts]
    simp [backfill_today_patterns]

/-! ## Corrupt-line tolerance machinery -/

theorem foldl_skip_none {σ : Type} (step : σ → String × Line → σ)
    (hnone : ∀ (st : σ) (pn : String), step st (pn, none) = st)
    (X Y : List (String × Line)) (st : σ) (pn : String) :
    (X ++ (pn, none) :: Y).foldl step st = (X ++ Y).foldl step st := by
  simp only [List.foldl_append, List.foldl_cons, hnone]

theorem linesOf_middle_none {σ : Type} (n : String)
    (ps1 ps2 : List Project) (fs1 fs2 : List (List Line))
    (f1 f2 : List Line) (step : σ → String × Line → σ)
    (hnone : ∀ (st : σ) (pn : String), step st (pn, none) = st)
    (st : σ) :
    (linesOf (ps1 ++ Project.mk n (fs1 ++ (f1 ++ none :: f2) :: fs2)
        :: ps2)).foldl step st
      = (linesOf (ps1 ++ Project.mk n (fs1 ++ (f1 ++ f2) :: fs2)
          :: ps2)).foldl step st := by
  by_cases hdot : strStarts n "." = true
  · simp [linesOf, List.flatMap_append, List.flatMap_cons, hdot]
  · simp only [linesOf, List.flatMap_append, List.flatMap_cons, hdot,
      Bool.false_eq_true, if_false, List.map_append, List.map_cons,
      List.foldl_append, List.foldl_cons, hnone]

/-- C7: scanning a log file containing one unparsable line interleaved
with valid lines yields a state identical to scanning the same file with
the invalid line removed, in both the steady-state pass and the startup
backfill: the parse failure skips that single line and the scan
continues. -/
theorem corrupt_line_tolerance (pats : List String)
    (m : String → String → Bool) (today n : String)
    (ps1 ps2 : List Project) (fs1 fs2 : List (List Line))
    (f1 f2 : List Line) (st : LoopSt) (pids : List String)
    (pcs : String → Nat) :
    (steadyPass pats m
        (ps1 ++ Project.mk n (fs1 ++ (f1 ++ none :: f2) :: fs2) :: ps2) st
      = steadyPass pats m
          (ps1 ++ Project.mk n (fs1 ++ (f1 ++ f2) :: fs2) :: ps2) st)
    ∧ (backfill_today_patterns pats m today
        (some (ps1 ++ Project.mk n (fs1 ++ (f1 ++ none :: f2) :: fs2)
          :: ps2)) pids pcs
      = backfill_today_patterns pats m today
          (some (ps1 ++ Project.mk n (fs1 ++ (f1 ++ f2) :: fs2) :: ps2))
          pids pcs) := by
  constructor
  · rw [steadyPass_eq_foldl, steadyPass_eq_foldl]
    exact linesOf_middle_none n ps1 ps2 fs1 fs2 f1 f2 (steadyLine pats m)
      (fun st' pn => rfl) _
  · rw [backfill_eq_foldl, backfill_eq_foldl]
    exact linesOf_middle_none n ps1 ps2 fs1 fs2 f1 f2
      (backfillLine pats m today) (fun st' pn => rfl) _

/-! ## Supervisor claims -/

/-- C8 counterexample: an instance that exhausted the restart budget is
not abandoned permanently.  With five restarts recorded at time 0 and a
dead process, the check at time 30 declines to restart (the logged
"Giving up"), yet the check at time 100 — once the 60-second window has
slid past those restarts — restarts the still-dead instance again. -/
theorem supervisor_giveup_counterexample :
    ((check_and_restart (WatcherProcess.mk false 5 [0, 0, 0, 0, 0]) 30).1
      = false)
    ∧ (((check_and_restart (WatcherProcess.mk false 5 [0, 0, 0, 0, 0])
          30).2).alive = false)
    ∧ ((check_and_restart
        (check_and_restart (WatcherProcess.mk false 5 [0, 0, 0, 0, 0])
          30).2 100).1 = true) := by
  refine ⟨rfl, rfl, ?_⟩
  decide

/-- C8 amended: the supervisor restarts a dead instance exactly when
fewer than `max_restarts` (5) of its recorded restart times fall within
the trailing `restart_window` (60-second) sliding window; reaching the
threshold only suppresses the restart while the window still holds five
restarts — nothing marks the instance permanently abandoned, so
restarting resumes once old restart times age out of the window. -/
theorem supervisor_restart_window (w : WatcherProcess) (t : Int)
    (hdead : w.alive = false) :
    (check_and_restart w t).1 = true
      ↔ (w.restart_times.filter
          (fun s => decide (t - s < restart_window))).length
        < max_restarts := by
  unfold check_and_restart
  rw [hdead]
  by_cases hlen : max_restarts ≤ (w.restart_times.filter
      (fun s => decide (t - s < restart_window))).length
  · simp [hlen, Nat.not_lt.mpr hlen]
  · simp [hlen, Nat.not_le.mp hlen]

/-- C8 witness: a dead instance with no recorded restarts is restarted
(the window constraint is satisfied). -/
theorem supervisor_restart_window_witness :
    (check_and_restart (WatcherProcess.mk false 0 []) 10).1 = true
      ↔ (([] : List Int).filter
          (fun s => decide ((10 : Int) - s < restart_window))).length
        < max_restarts :=
  supervisor_restart_window (WatcherProcess.mk false 0 []) 10 rfl

/-! ## Persist-before-report claim -/

theorem mem_of_getElem {α : Type} {l : List α} {i : Nat}
    (h : i < l.length) : l[i] ∈ l := by
  simp

theorem save_before_upload_split (S U : List Ev)
    (hS : ∀ x ∈ S, isUpload x = false) (hU : ∀ x ∈ U, isSave x = false)
    (i j : Nat) (hi : i < (S ++ U).length) (hj : j < (S ++ U).length)
    (hsave : isSave ((S ++ U)[i]) = true)
    (hup : isUpload ((S ++ U)[j]) = true) : i < j := by
  have hiS : i < S.length := by
    by_contra his
    push_neg at his
    have hb : i - S.length < U.length := by
      rw [List.length_append] at hi
      omega
    rw [List.getElem_append_right his] at hsave
    rw [hU _ (mem_of_getElem hb)] at hsave
    cases hsave
  have hjS : S.length ≤ j := by
    by_contra hjs
    push_neg at hjs
    rw [List.getElem_append_left hjs] at hup
    rw [hS _ (mem_of_getElem hjs)] at hup
    cases hup
  omega

/-- C9: in a steady-state cycle, the upload outcome does not affect any
local state (the cycle state is identical whether the Reporting Sink
reports success or failure); when the pass found new activity the event
trace writes the project, processed-id, every per-pattern, and the
total-message store, followed by the upload exactly when an API URL is
configured; and in the trace every store write strictly precedes every
upload event. -/
theorem persist_before_upload (pats : List String)
    (m : String → String → Bool) (api_url : Option String)
    (ps : List Project) (st : LoopSt) (u u' : Bool) :
    ((steadyCycle pats m api_url u ps st).1
      = (steadyCycle pats m api_url u' ps st).1)
    ∧ (anyNew pats (steadyPass pats m ps st) = true →
        (steadyCycle pats m api_url u ps st).2
          = ([Ev.saveProjects, Ev.saveProcessed]
              ++ pats.map Ev.savePattern ++ [Ev.saveTotals])
            ++ (match api_url with
                | some _ => [Ev.upload u]
                | none => []))
    ∧ (∀ i j,
        ∀ (hi : i < (steadyCycle pats m api_url u ps st).2.length)
          (hj : j < (steadyCycle pats m api_url u ps st).2.length),
        isSave ((steadyCycle pats m api_url u ps st).2[i]) = true →
        isUpload ((steadyCycle pats m api_url u ps st).2[j]) = true →
        i < j) := by
  have hS : ∀ x ∈ ([Ev.saveProjects, Ev.saveProcessed]
      ++ pats.map Ev.savePattern ++ [Ev.saveTotals]),
      isUpload x = false := by
    intro x hx
    cases x <;> simp_all [isUpload]
  refine ⟨?_, ?_, ?_⟩
  · by_cases hn : anyNew pats (steadyPass pats m ps st) = true
    · cases api_url <;> simp [steadyCycle, afterPass, hn]
    · cases api_url <;> simp [steadyCycle, afterPass, hn]
  · intro hn
    cases api_url <;> simp [steadyCycle, afterPass, hn]
  · intro i j hi hj hsave hup
    by_cases hn : anyNew pats (steadyPass pats m ps st) = true
    · cases hap : api_url with
      | none =>
          exfalso
          have hevs : (steadyCycle pats m api_url u ps st).2
              = [Ev.saveProjects, Ev.saveProcessed]
                ++ pats.map Ev.savePattern ++ [Ev.saveTotals] := by
            simp [steadyCycle, afterPass, hn, hap]
          revert hj hup
          rw [hevs]
          intro hj hup
          rw [hS _ (mem_of_getElem hj)] at hup
          cases hup
      | some url =>
          have hevs : (steadyCycle pats m api_url u ps st).2
              = ([Ev.saveProjects, Ev.saveProcessed]
                  ++ pats.map Ev.savePattern ++ [Ev.saveTotals])
                ++ [Ev.upload u] := by
            simp [steadyCycle, afterPass, hn, hap]
          revert hi hj hsave hup
          rw [hevs]
          intro hi hj hsave hup
          refine save_before_upload_split _ _ hS ?_ i j hi hj hsave hup
          intro x hx
          obtain rfl := List.mem_singleton.mp hx
          rfl
    · exfalso
      have hevs : (steadyCycle pats m api_url u ps st).2 = [] := by
        simp [steadyCycle, afterPass, hn]
      revert hi
      rw [hevs]
      intro hi
      exact absurd hi (by simp)

/-- C9 witness: a pass over `psDemo` from the empty state finds new
activity; with an API URL configured the trace is the four saves (one
per store, one tracked pattern) followed by the upload, the first save
precedes the upload at index 4, and the cycle state does not depend on
the upload outcome. -/
theorem persist_before_upload_witness :
    ((steadyCycle ["pa"] mEq (some "http://x") true psDemo stZero).1
      = (steadyCycle ["pa"] mEq (some "http://x") false psDemo stZero).1)
    ∧ ((steadyCycle ["pa"] mEq (some "http://x") true psDemo stZero).2
      = ([Ev.saveProjects, Ev.saveProcessed]
          ++ ["pa"].map Ev.savePattern ++ [Ev.saveTotals])
        ++ [Ev.upload true])
    ∧ (0 < 4) := by
  have T := persist_before_upload ["pa"] mEq (some "http://x") psDemo
    stZero true false
  refine ⟨T.1, T.2.1 (by decide), ?_⟩
  exact T.2.2 0 4 (by decide) (by decide) (by decide) (by decide)

/-! ## CLI argument-scan claim -/

/-- C10: the CLI scan stops at `--upload <url>`: a non-`--` argument
right after the URL is taken as the secret no matter what follows; a
`--secret` given after `--upload <url>` is ignored and the secret stays
unset; a `--secret` before `--upload` is honored (and survives when the
`--upload` has no trailing positional secret); and `--secret` is honored
when no `--upload` is present. -/
theorem cli_upload_breaks_scan (d : Option String) (h0 u s v : String)
    (rest rest2 : List String)
    (hh1 : h0 ≠ "--upload") (hh2 : h0 ≠ "--secret")
    (hs : strStarts s "--" = false) :
    (parseArgs (h0 :: "--upload" :: u :: s :: rest) d = (some u, some s))
    ∧ (parseArgs (h0 :: "--upload" :: u :: "--secret" :: v :: rest2) d
        = (some u, none))
    ∧ (parseArgs (h0 :: "--secret" :: s :: ["--upload", u]) d
        = (some u, some s))
    ∧ (parseArgs (h0 :: "--secret" :: s :: []) d = (d, some s)) := by
  have hsu : s ≠ "--upload" := by
    intro h
    subst h
    exact absurd hs (by decide)
  have hss : s ≠ "--secret" := by
    intro h
    subst h
    exact absurd hs (by decide)
  have e1 : ("--secret" : String) ≠ "--upload" := by decide
  have e2 : strStarts "--secret" "--" = true := by decide
  refine ⟨?_, ?_, ?_, ?_⟩
  · simp [parseArgs, parseLoop, hh1, hh2, hs]
  · simp [parseArgs, parseLoop, hh1, hh2, e2]
  · simp [parseArgs, parseLoop, hh1, hh2, hsu, hss, e1]
  · simp [parseArgs, parseLoop, hh1, hh2, e1]

/-- C10 witness: the four scan behaviours at concrete command lines. -/
theorem cli_upload_breaks_scan_witness :
    (parseArgs ["watcher.py", "--upload", "http://x", "sec"] none
      = (some "http://x", some "sec"))
    ∧ (parseArgs ["watcher.py", "--upload", "http://x", "--secret", "s2"]
        none = (some "http://x", none))
    ∧ (parseArgs ["watcher.py", "--secret", "sec", "--upload", "http://x"]
        none = (some "http://x", some "sec"))
    ∧ (parseArgs ["watcher.py", "--secret", "sec"] none
      = (none, some "sec")) := by
  have T := cli_upload_breaks_scan none "watcher.py" "http://x" "sec" "s2"
    [] [] (by decide) (by decide) (by decide)
  exact ⟨T.1, T.2.1, T.2.2.1, T.2.2.2⟩

end Watcher
